import Mathlib

/-!
Shallow embedding of the xml-watcher utility (src/main.rs) and proofs of the
specification claims. Strings are modelled by Lean `String`; external effects
(the HTTP request, file reads and writes, the clock) are modelled by explicit
oracle values passed to the embedded functions, and the process-wide
suppression set (`ignore_list` in the source, a `HashSet<PathBuf>` under a
mutex) is threaded as an explicit `List String` with set semantics.
-/

namespace XmlWatcher

/-- ASCII lower-casing of a single character, as Rust's
`char::to_ascii_lowercase`. -/
def asciiLower (c : Char) : Char :=
  if 'A' ≤ c && c ≤ 'Z' then Char.ofNat (c.toNat + 32) else c

/-- ASCII upper-casing of a single character, as Rust's
`char::to_ascii_uppercase`. -/
def asciiUpper (c : Char) : Char :=
  if 'a' ≤ c && c ≤ 'z' then Char.ofNat (c.toNat - 32) else c

/-- Rust `str::to_lowercase`, restricted to the simple per-character ASCII
mapping; Unicode full lowercasing differs only on characters that can never
produce the ASCII comparands (`"true"`) used in the source. -/
def rustToLowercase (s : String) : String :=
  String.mk (s.toList.map asciiLower)

/-- Rust `str::to_uppercase`, restricted to the simple per-character ASCII
mapping; Unicode full uppercasing differs only on characters that can never
produce the ASCII comparands (`"GET"`, `"PUT"`, `"PATCH"`, `"DELETE"`) used in
the source. -/
def rustToUppercase (s : String) : String :=
  String.mk (s.toList.map asciiUpper)

/-- Rust `str::eq_ignore_ascii_case`: both sides ASCII-lower-cased and
compared. -/
def eqIgnoreAsciiCase (a b : String) : Bool :=
  a.toList.map asciiLower == b.toList.map asciiLower

/-- Test that `pre` is a prefix of `s`, character by character (Rust
`str::starts_with`). -/
def isPrefixChars : List Char → List Char → Bool
  | [], _ => true
  | _ :: _, [] => false
  | a :: as, b :: bs => a == b && isPrefixChars as bs

/-- Rust `str::starts_with` on strings. -/
def strStartsWith (s pre : String) : Bool :=
  isPrefixChars pre.toList s.toList

/-- Split a character list on a separator character (used to model path
components separated by `/`). -/
def splitOnChar (c : Char) : List Char → List (List Char)
  | [] => [[]]
  | x :: rest =>
    if x == c then [] :: splitOnChar c rest
    else
      match splitOnChar c rest with
      | [] => [[x]]
      | h :: t => (x :: h) :: t

/-- Rust `Path::file_name` on a path string: the last normal component, with
empty and `"."` components ignored; `none` when there is no component or the
path terminates in `".."`. -/
def rustFileName (path : String) : Option String :=
  let comps := (splitOnChar '/' path.toList).filter
    (fun c => !(c == []) && !(c == ['.']))
  match comps.getLast? with
  | none => none
  | some last => if last == ['.', '.'] then none else some (String.mk last)

/-- Rust `Path::extension` applied to a file name: the part after the last
`.`, provided the part before that `.` is non-empty; `none` for a name with
no `.`, a leading-dot-only name, or the special name `".."`. -/
def rustExtension (fname : String) : Option String :=
  let cs := fname.toList
  if cs == ['.', '.'] then none
  else if cs.contains '.' then
    let afterRev := cs.reverse.takeWhile (fun c => !(c == '.'))
    let before := cs.take (cs.length - afterRev.length - 1)
    if before == [] then none else some (String.mk afterRev.reverse)
  else none

/-- The function `fn is_xml_file(path: &Path) -> bool` from the source:
`path.extension().and_then(|ext| ext.to_str()).map(|ext|
ext.eq_ignore_ascii_case("xml")).unwrap_or(false)`. -/
def is_xml_file (path : String) : Bool :=
  match rustFileName path with
  | none => false
  | some f =>
    match rustExtension f with
    | none => false
    | some ext => eqIgnoreAsciiCase ext "xml"

/-- The constant `IGNORE_DURATION_SECS: u64 = 2` from the source. -/
def IGNORE_DURATION_SECS : Nat := 2

/-- The settle delay (milliseconds) applied before each spawned delivery. -/
def SETTLE_DELAY_MS : Nat := 500

/-- The `struct Config` from the source. -/
structure Config where
  watch_dir : String
  webhook_url : String
  webhook_method : String
  include_content : Bool
  overwrite_with_response : Bool
deriving DecidableEq, Repr

/-- Embedding of `Config::from_env`, over an explicit environment (a name map;
`none` models an unset — or non-unicode — variable, on which `env::var`
errors and the `unwrap_or_else` default applies). -/
def Config.from_env (env : String → Option String) : Except String Config :=
  let watch_dir := (env "WATCH_DIR").getD "/watch"
  match env "WEBHOOK_URL" with
  | none => Except.error "WEBHOOK_URL environment variable is required"
  | some webhook_url =>
    let webhook_method := (env "WEBHOOK_METHOD").getD "POST"
    let include_content :=
      rustToLowercase ((env "INCLUDE_CONTENT").getD "false") == "true"
    let overwrite_with_response :=
      rustToLowercase ((env "OVERWRITE_WITH_RESPONSE").getD "false") == "true"
    Except.ok
      { watch_dir, webhook_url, webhook_method, include_content,
        overwrite_with_response }

/-- The startup warning in `main`: `config.overwrite_with_response &&
!config.include_content` triggers a warning (and nothing else: startup
proceeds). -/
def mainWarnsInertCombination (config : Config) : Bool :=
  config.overwrite_with_response && !config.include_content

/-- The suppression-set `contains` operation (HashSet under a mutex in the
source). -/
def igContains (s : List String) (p : String) : Bool :=
  s.contains p

/-- The suppression-set `insert` operation. -/
def igInsert (s : List String) (p : String) : List String :=
  if igContains s p then s else p :: s

/-- The suppression-set `remove` operation. -/
def igRemove (s : List String) (p : String) : List String :=
  s.filter (fun q => !(q == p))

/-- An atomic operation on the suppression set, for reasoning about its
lifetime across interleaved insertions and removals. -/
inductive SetOp where
  | ins (p : String)
  | rem (p : String)
deriving DecidableEq

/-- Apply one suppression-set operation. -/
def applySetOp (s : List String) : SetOp → List String
  | SetOp.ins p => igInsert s p
  | SetOp.rem p => igRemove s p

/-- Apply a sequence of suppression-set operations, oldest first. -/
def applySetOps (s : List String) (ops : List SetOp) : List String :=
  ops.foldl applySetOp s

/-- The `struct WebhookPayload` from the source. -/
structure WebhookPayload where
  event : String
  filepath : String
  filename : String
  content : Option String
  timestamp : String
deriving DecidableEq, Repr

/-- The serde serialization of the payload as an ordered field list: the
`content` field carries `#[serde(skip_serializing_if = "Option::is_none")]`,
so it is present exactly when `content` is `Some`. -/
def serializedFields (p : WebhookPayload) : List (String × String) :=
  [("event", p.event), ("filepath", p.filepath), ("filename", p.filename)]
    ++ (match p.content with
        | some c => [("content", c)]
        | none => [])
    ++ [("timestamp", p.timestamp)]

/-- The HTTP verb actually used for the request. -/
inductive HttpMethod where
  | GET
  | PUT
  | PATCH
  | DELETE
  | POST
deriving DecidableEq, Repr

/-- The verb dispatch in `trigger_webhook`:
`match config.webhook_method.to_uppercase().as_str() { "GET" => .., "PUT" =>
.., "PATCH" => .., "DELETE" => .., _ => post }`. -/
def resolveMethod (m : String) : HttpMethod :=
  if rustToUppercase m == "GET" then HttpMethod.GET
  else if rustToUppercase m == "PUT" then HttpMethod.PUT
  else if rustToUppercase m == "PATCH" then HttpMethod.PATCH
  else if rustToUppercase m == "DELETE" then HttpMethod.DELETE
  else HttpMethod.POST

/-- Rust `reqwest::StatusCode::is_success`: status in the 2xx range. -/
def isSuccessStatus (s : Nat) : Bool :=
  200 ≤ s && s < 300

/-- The webhook HTTP response, as observed by the delivery code: the numeric
status, the `content-type` header (`none` when the header is missing or its
value is not visible ASCII, i.e. `to_str` fails), and the result of reading
the body as text. -/
structure HttpResponse where
  status : Nat
  contentTypeHeader : Option String
  bodyText : Except String String
deriving Repr

/-- Filesystem oracle for one delivery: the result of
`tokio::fs::read_to_string(&filepath)` and of
`tokio::fs::write(&filepath, ..)`, would they be performed. -/
structure FsOracle where
  readResult : Except String String
  writeResult : Except String Unit
deriving Repr

/-- The closure `should_overwrite_with_response` from the source:
`config.overwrite_with_response && config.include_content`. -/
def should_overwrite_with_response (config : Config) : Bool :=
  config.overwrite_with_response && config.include_content

/-- The content-type acceptance check from the source:
`content_type.starts_with("text/xml") ||
content_type.starts_with("application/xml")`. -/
def contentTypeIsXml (content_type : String) : Bool :=
  strStartsWith content_type "text/xml"
    || strStartsWith content_type "application/xml"

/-- Observable outcome of one `trigger_webhook` run: the payload it built,
which branches it took, the suppression set as passed to the file write (if
one was attempted) and as left after the run, and which log messages of
interest were emitted. `deferredRemovalDelaySecs` is `some d` when a deferred
removal of the path from the suppression set after `d` seconds was
spawned. -/
structure TriggerOutcome where
  payload : WebhookPayload
  requestMethod : HttpMethod
  sendAttempted : Bool
  overwriteEntered : Bool
  ignoreAtWrite : Option (List String)
  fileOverwritten : Bool
  ignoreAfter : List String
  deferredRemovalDelaySecs : Option Nat
  warnedNotXml : Bool
  warnedEmptyBody : Bool
  erroredBodyRead : Bool
  erroredWrite : Bool
  erroredFileRead : Bool
deriving DecidableEq, Repr

/-- The response-driven overwrite block of `trigger_webhook` (the body of
`if should_overwrite_with_response(&config) { .. }`): check the
content-type, read the body, and when the body is non-empty insert the path
into the suppression set, write, and on success spawn the deferred removal —
on failure remove the path again at once. -/
def overwriteWithResponse (filepath : String) (ignore : List String)
    (response : HttpResponse) (writeResult : Except String Unit)
    (base : TriggerOutcome) : TriggerOutcome :=
  if contentTypeIsXml (response.contentTypeHeader.getD "") then
    match response.bodyText with
    | Except.ok response_body =>
      if !(response_body == "") then
        match writeResult with
        | Except.ok _ =>
          { base with
            overwriteEntered := true,
            ignoreAtWrite := some (igInsert ignore filepath),
            fileOverwritten := true,
            ignoreAfter := igInsert ignore filepath,
            deferredRemovalDelaySecs := some IGNORE_DURATION_SECS }
        | Except.error _ =>
          { base with
            overwriteEntered := true,
            ignoreAtWrite := some (igInsert ignore filepath),
            erroredWrite := true,
            ignoreAfter := igRemove (igInsert ignore filepath) filepath }
      else
        { base with overwriteEntered := true, warnedEmptyBody := true }
    | Except.error _ =>
      { base with overwriteEntered := true, erroredBodyRead := true }
  else
    { base with overwriteEntered := true, warnedNotXml := true }

/-- The outcome shared by every branch of `trigger_webhook` before the
response is interpreted: the payload (content read only when
`include_content`, a read failure logged and degraded to `none`), the
resolved verb, and the untouched suppression set. -/
def baseOutcome (config : Config) (filepath : String) (ignore : List String)
    (fs : FsOracle) (now : String) : TriggerOutcome :=
  { payload :=
      { event := "new_xml_file",
        filepath := filepath,
        filename := (rustFileName filepath).getD "",
        content :=
          if config.include_content then
            match fs.readResult with
            | Except.ok c => some c
            | Except.error _ => none
          else none,
        timestamp := now },
    requestMethod := resolveMethod config.webhook_method,
    sendAttempted := true,
    overwriteEntered := false,
    ignoreAtWrite := none,
    fileOverwritten := false,
    ignoreAfter := ignore,
    deferredRemovalDelaySecs := none,
    warnedNotXml := false,
    warnedEmptyBody := false,
    erroredBodyRead := false,
    erroredWrite := false,
    erroredFileRead :=
      config.include_content
        && (match fs.readResult with
            | Except.ok _ => false
            | Except.error _ => true) }

/-- The body of `async fn trigger_webhook`: build the payload, send the request
(`sendResult` is the transport oracle), and on a 2xx response run the
response-driven overwrite block when enabled. A transport failure or a
non-2xx status is logged and nothing further happens. -/
def trigger_webhook (config : Config) (filepath : String)
    (ignore : List String) (sendResult : Except String HttpResponse)
    (fs : FsOracle) (now : String) : TriggerOutcome :=
  match sendResult with
  | Except.error _ => baseOutcome config filepath ignore fs now
  | Except.ok response =>
    if isSuccessStatus response.status then
      if should_overwrite_with_response config then
        overwriteWithResponse filepath ignore response fs.writeResult
          (baseOutcome config filepath ignore fs now)
      else baseOutcome config filepath ignore fs now
    else baseOutcome config filepath ignore fs now

/-- The event kinds reported by the watcher (`notify::EventKind`,
collapsed to what the dispatcher distinguishes). -/
inductive EventKind where
  | create
  | modify
  | removeKind
  | other
deriving DecidableEq, Repr

/-- The dispatcher's decision for one path of one event. -/
inductive Decision where
  | notCreateEvent
  | filteredOut
  | suppressed
  | spawned
deriving DecidableEq, Repr

/-- The per-path dispatch logic of the receive loop in `main`: only `Create`
events are handled; a path must currently be a regular file (`isFileNow`
oracle) with an `xml` extension; a path in the suppression set is logged and
skipped; otherwise a delivery task is spawned (after the settle delay). -/
def dispatchPath (kind : EventKind) (isFileNow : String → Bool)
    (ignore : List String) (path : String) : Decision :=
  match kind with
  | EventKind.create =>
    if isFileNow path && is_xml_file path then
      if igContains ignore path then Decision.suppressed
      else Decision.spawned
    else Decision.filteredOut
  | _ => Decision.notCreateEvent

/-- Sample configuration: overwrite enabled, content inclusion disabled (the
inert combination). -/
def cfgInert : Config :=
  { watch_dir := "/watch", webhook_url := "http://h/w",
    webhook_method := "POST", include_content := false,
    overwrite_with_response := true }

/-- Sample configuration: overwrite and content inclusion both enabled. -/
def cfgFull : Config :=
  { watch_dir := "/watch", webhook_url := "http://h/w",
    webhook_method := "POST", include_content := true,
    overwrite_with_response := true }

/-- Sample 2xx response with an XML content type and a non-empty body. -/
def respXmlOk : HttpResponse :=
  { status := 200, contentTypeHeader := some "application/xml; charset=utf-8",
    bodyText := Except.ok "<ok/>" }

/-- Sample 2xx response with a `text/plain` content type. -/
def respPlain : HttpResponse :=
  { status := 200, contentTypeHeader := some "text/plain",
    bodyText := Except.ok "<ok/>" }

/-- Sample 2xx response with an XML content type and an empty body. -/
def respXmlEmpty : HttpResponse :=
  { status := 200, contentTypeHeader := some "text/xml",
    bodyText := Except.ok "" }

/-- Sample 2xx response with an XML content type whose body read fails. -/
def respXmlBodyErr : HttpResponse :=
  { status := 200, contentTypeHeader := some "application/xml",
    bodyText := Except.error "decode error" }

/-- Sample filesystem oracle where both the read and the write succeed. -/
def fsOk : FsOracle :=
  { readResult := Except.ok "<in/>", writeResult := Except.ok () }

/-- Sample filesystem oracle where the read succeeds and the write fails. -/
def fsWriteErr : FsOracle :=
  { readResult := Except.ok "<in/>",
    writeResult := Except.error "permission denied" }

/-- Sample filesystem oracle where the file read fails. -/
def fsReadErr : FsOracle :=
  { readResult := Except.error "no such file",
    writeResult := Except.ok () }

/-! ### Helper lemmas about the embedded operations -/

lemma baseOutcome_overwriteEntered (config : Config) (fp : String)
    (ig : List String) (fs : FsOracle) (now : String) :
    (baseOutcome config fp ig fs now).overwriteEntered = false := rfl

lemma baseOutcome_fileOverwritten (config : Config) (fp : String)
    (ig : List String) (fs : FsOracle) (now : String) :
    (baseOutcome config fp ig fs now).fileOverwritten = false := rfl

lemma baseOutcome_ignoreAtWrite (config : Config) (fp : String)
    (ig : List String) (fs : FsOracle) (now : String) :
    (baseOutcome config fp ig fs now).ignoreAtWrite = none := rfl

lemma baseOutcome_ignoreAfter (config : Config) (fp : String)
    (ig : List String) (fs : FsOracle) (now : String) :
    (baseOutcome config fp ig fs now).ignoreAfter = ig := rfl

lemma baseOutcome_requestMethod (config : Config) (fp : String)
    (ig : List String) (fs : FsOracle) (now : String) :
    (baseOutcome config fp ig fs now).requestMethod
      = resolveMethod config.webhook_method := rfl

lemma baseOutcome_erroredWrite (config : Config) (fp : String)
    (ig : List String) (fs : FsOracle) (now : String) :
    (baseOutcome config fp ig fs now).erroredWrite = false := rfl

lemma overwriteWithResponse_entered (fp : String) (ig : List String)
    (r : HttpResponse) (w : Except String Unit) (base : TriggerOutcome) :
    (overwriteWithResponse fp ig r w base).overwriteEntered = true := by
  unfold overwriteWithResponse
  split
  · split
    · split
      · split <;> rfl
      · rfl
    · rfl
  · rfl

lemma overwriteWithResponse_requestMethod (fp : String) (ig : List String)
    (r : HttpResponse) (w : Except String Unit) (base : TriggerOutcome) :
    (overwriteWithResponse fp ig r w base).requestMethod
      = base.requestMethod := by
  unfold overwriteWithResponse
  split
  · split
    · split
      · split <;> rfl
      · rfl
    · rfl
  · rfl

lemma overwriteWithResponse_payload (fp : String) (ig : List String)
    (r : HttpResponse) (w : Except String Unit) (base : TriggerOutcome) :
    (overwriteWithResponse fp ig r w base).payload = base.payload := by
  unfold overwriteWithResponse
  split
  · split
    · split
      · split <;> rfl
      · rfl
    · rfl
  · rfl

lemma overwriteWithResponse_sendAttempted (fp : String) (ig : List String)
    (r : HttpResponse) (w : Except String Unit) (base : TriggerOutcome) :
    (overwriteWithResponse fp ig r w base).sendAttempted
      = base.sendAttempted := by
  unfold overwriteWithResponse
  split
  · split
    · split
      · split <;> rfl
      · rfl
    · rfl
  · rfl

lemma trigger_webhook_sendError (config : Config) (fp : String)
    (ig : List String) (e : String) (fs : FsOracle) (now : String) :
    trigger_webhook config fp ig (Except.error e) fs now
      = baseOutcome config fp ig fs now := rfl

lemma trigger_webhook_notSuccess (config : Config) (fp : String)
    (ig : List String) (r : HttpResponse) (fs : FsOracle) (now : String)
    (hs : isSuccessStatus r.status = false) :
    trigger_webhook config fp ig (Except.ok r) fs now
      = baseOutcome config fp ig fs now := by
  unfold trigger_webhook
  simp [hs]

lemma trigger_webhook_success_disabled (config : Config) (fp : String)
    (ig : List String) (r : HttpResponse) (fs : FsOracle) (now : String)
    (hs : isSuccessStatus r.status = true)
    (hw : should_overwrite_with_response config = false) :
    trigger_webhook config fp ig (Except.ok r) fs now
      = baseOutcome config fp ig fs now := by
  unfold trigger_webhook
  simp [hs, hw]

lemma trigger_webhook_success_enabled (config : Config) (fp : String)
    (ig : List String) (r : HttpResponse) (fs : FsOracle) (now : String)
    (hs : isSuccessStatus r.status = true)
    (hw : should_overwrite_with_response config = true) :
    trigger_webhook config fp ig (Except.ok r) fs now
      = overwriteWithResponse fp ig r fs.writeResult
          (baseOutcome config fp ig fs now) := by
  unfold trigger_webhook
  simp [hs, hw]

lemma igContains_igInsert_self (s : List String) (p : String) :
    igContains (igInsert s p) p = true := by
  unfold igInsert
  by_cases h : igContains s p = true
  · rw [if_pos h]
    exact h
  · rw [if_neg h]
    simp [igContains]

lemma igContains_igRemove_self (s : List String) (p : String) :
    igContains (igRemove s p) p = false := by
  simp [igContains, igRemove]

lemma igContains_applySetOp_preserved (s : List String) (p : String)
    (op : SetOp) (hop : op ≠ SetOp.rem p) (h : igContains s p = true) :
    igContains (applySetOp s op) p = true := by
  cases op with
  | ins q =>
    show igContains (igInsert s q) p = true
    unfold igInsert
    by_cases hc : igContains s q = true
    · rw [if_pos hc]
      exact h
    · rw [if_neg hc]
      simp [igContains] at h ⊢
      exact Or.inr h
  | rem q =>
    have hqp : q ≠ p := fun e => hop (by rw [e])
    show igContains (igRemove s q) p = true
    unfold igRemove
    simp [igContains] at h ⊢
    exact ⟨h, fun e => hqp e.symm⟩

lemma igContains_applySetOps_preserved (p : String) (ops : List SetOp) :
    ∀ s, (∀ op ∈ ops, op ≠ SetOp.rem p) → igContains s p = true →
      igContains (applySetOps s ops) p = true := by
  induction ops with
  | nil => exact fun s _ h => h
  | cons op rest ih =>
    intro s hops h
    have h1 := igContains_applySetOp_preserved s p op (hops op (by simp)) h
    have h2 := ih (applySetOp s op)
      (fun o ho => hops o (List.mem_cons_of_mem _ ho)) h1
    simpa [applySetOps] using h2

lemma overwriteWithResponse_erroredFileRead (fp : String) (ig : List String)
    (r : HttpResponse) (w : Except String Unit) (base : TriggerOutcome) :
    (overwriteWithResponse fp ig r w base).erroredFileRead
      = base.erroredFileRead := by
  unfold overwriteWithResponse
  split
  · split
    · split
      · split <;> rfl
      · rfl
    · rfl
  · rfl

lemma overwriteWithResponse_notXml (fp : String) (ig : List String)
    (r : HttpResponse) (w : Except String Unit) (base : TriggerOutcome)
    (hx : contentTypeIsXml (r.contentTypeHeader.getD "") = false) :
    overwriteWithResponse fp ig r w base
      = { base with overwriteEntered := true, warnedNotXml := true } := by
  unfold overwriteWithResponse
  rw [if_neg (by simp [hx])]

lemma overwriteWithResponse_bodyErr (fp : String) (ig : List String)
    (r : HttpResponse) (w : Except String Unit) (base : TriggerOutcome)
    (hx : contentTypeIsXml (r.contentTypeHeader.getD "") = true)
    (e : String) (hb : r.bodyText = Except.error e) :
    overwriteWithResponse fp ig r w base
      = { base with overwriteEntered := true, erroredBodyRead := true } := by
  unfold overwriteWithResponse
  rw [if_pos hx, hb]

lemma overwriteWithResponse_emptyBody (fp : String) (ig : List String)
    (r : HttpResponse) (w : Except String Unit) (base : TriggerOutcome)
    (hx : contentTypeIsXml (r.contentTypeHeader.getD "") = true)
    (hb : r.bodyText = Except.ok "") :
    overwriteWithResponse fp ig r w base
      = { base with overwriteEntered := true, warnedEmptyBody := true } := by
  unfold overwriteWithResponse
  rw [if_pos hx, hb]
  rfl

lemma overwriteWithResponse_writeOk (fp : String) (ig : List String)
    (r : HttpResponse) (w : Except String Unit) (base : TriggerOutcome)
    (hx : contentTypeIsXml (r.contentTypeHeader.getD "") = true)
    (body : String) (hb : r.bodyText = Except.ok body) (hne : ¬(body = ""))
    (hw : w = Except.ok ()) :
    overwriteWithResponse fp ig r w base
      = { base with
          overwriteEntered := true,
          ignoreAtWrite := some (igInsert ig fp),
          fileOverwritten := true,
          ignoreAfter := igInsert ig fp,
          deferredRemovalDelaySecs := some IGNORE_DURATION_SECS } := by
  unfold overwriteWithResponse
  rw [if_pos hx, hb, hw]
  simp [hne]

lemma overwriteWithResponse_writeErr (fp : String) (ig : List String)
    (r : HttpResponse) (w : Except String Unit) (base : TriggerOutcome)
    (hx : contentTypeIsXml (r.contentTypeHeader.getD "") = true)
    (body : String) (hb : r.bodyText = Except.ok body) (hne : ¬(body = ""))
    (e : String) (hw : w = Except.error e) :
    overwriteWithResponse fp ig r w base
      = { base with
          overwriteEntered := true,
          ignoreAtWrite := some (igInsert ig fp),
          erroredWrite := true,
          ignoreAfter := igRemove (igInsert ig fp) fp } := by
  unfold overwriteWithResponse
  rw [if_pos hx, hb, hw]
  simp [hne]

lemma overwriteWithResponse_cases (fp : String) (ig : List String)
    (r : HttpResponse) (w : Except String Unit) (base : TriggerOutcome) :
    (contentTypeIsXml (r.contentTypeHeader.getD "") = false
      ∧ overwriteWithResponse fp ig r w base
        = { base with overwriteEntered := true, warnedNotXml := true })
    ∨ (contentTypeIsXml (r.contentTypeHeader.getD "") = true
      ∧ ∃ e, r.bodyText = Except.error e
      ∧ overwriteWithResponse fp ig r w base
        = { base with overwriteEntered := true, erroredBodyRead := true })
    ∨ (contentTypeIsXml (r.contentTypeHeader.getD "") = true
      ∧ r.bodyText = Except.ok ""
      ∧ overwriteWithResponse fp ig r w base
        = { base with overwriteEntered := true, warnedEmptyBody := true })
    ∨ (contentTypeIsXml (r.contentTypeHeader.getD "") = true
      ∧ ∃ body, r.bodyText = Except.ok body ∧ ¬(body = "")
      ∧ w = Except.ok ()
      ∧ overwriteWithResponse fp ig r w base
        = { base with
            overwriteEntered := true,
            ignoreAtWrite := some (igInsert ig fp),
            fileOverwritten := true,
            ignoreAfter := igInsert ig fp,
            deferredRemovalDelaySecs := some IGNORE_DURATION_SECS })
    ∨ (contentTypeIsXml (r.contentTypeHeader.getD "") = true
      ∧ ∃ body e, r.bodyText = Except.ok body ∧ ¬(body = "")
      ∧ w = Except.error e
      ∧ overwriteWithResponse fp ig r w base
        = { base with
            overwriteEntered := true,
            ignoreAtWrite := some (igInsert ig fp),
            erroredWrite := true,
            ignoreAfter := igRemove (igInsert ig fp) fp }) := by
  cases hx : contentTypeIsXml (r.contentTypeHeader.getD "") with
  | false =>
    exact Or.inl ⟨rfl, overwriteWithResponse_notXml fp ig r w base hx⟩
  | true =>
    cases hb : r.bodyText with
    | error e =>
      exact Or.inr (Or.inl
        ⟨rfl, e, rfl, overwriteWithResponse_bodyErr fp ig r w base hx e hb⟩)
    | ok body =>
      by_cases hne : body = ""
      · subst hne
        exact Or.inr (Or.inr (Or.inl
          ⟨rfl, rfl, overwriteWithResponse_emptyBody fp ig r w base hx hb⟩))
      · cases hw : w with
        | ok u =>
          cases u
          exact Or.inr (Or.inr (Or.inr (Or.inl
            ⟨rfl, body, rfl, hne, rfl,
             overwriteWithResponse_writeOk fp ig r _ base hx body hb hne
               rfl⟩)))
        | error e =>
          exact Or.inr (Or.inr (Or.inr (Or.inr
            ⟨rfl, body, e, rfl, hne, rfl,
             overwriteWithResponse_writeErr fp ig r _ base hx body hb hne e
               rfl⟩)))

lemma trigger_eq_base_or_enabled (config : Config) (fp : String)
    (ig : List String) (sr : Except String HttpResponse) (fs : FsOracle)
    (now : String) :
    (trigger_webhook config fp ig sr fs now
        = baseOutcome config fp ig fs now)
    ∨ ∃ r, sr = Except.ok r ∧ isSuccessStatus r.status = true
        ∧ should_overwrite_with_response config = true
        ∧ trigger_webhook config fp ig sr fs now
          = overwriteWithResponse fp ig r fs.writeResult
              (baseOutcome config fp ig fs now) := by
  cases sr with
  | error e => exact Or.inl (trigger_webhook_sendError config fp ig e fs now)
  | ok r =>
    cases hs : isSuccessStatus r.status with
    | false =>
      exact Or.inl (trigger_webhook_notSuccess config fp ig r fs now hs)
    | true =>
      cases hw : should_overwrite_with_response config with
      | false =>
        exact Or.inl
          (trigger_webhook_success_disabled config fp ig r fs now hs hw)
      | true =>
        exact Or.inr ⟨r, rfl, hs, rfl,
          trigger_webhook_success_enabled config fp ig r fs now hs hw⟩

lemma baseOutcome_sendAttempted (config : Config) (fp : String)
    (ig : List String) (fs : FsOracle) (now : String) :
    (baseOutcome config fp ig fs now).sendAttempted = true := rfl

lemma baseOutcome_payload_content (config : Config) (fp : String)
    (ig : List String) (fs : FsOracle) (now : String) :
    (baseOutcome config fp ig fs now).payload.content
      = (if config.include_content then
          match fs.readResult with
          | Except.ok c => some c
          | Except.error _ => none
        else none) := rfl

lemma baseOutcome_erroredFileRead (config : Config) (fp : String)
    (ig : List String) (fs : FsOracle) (now : String) :
    (baseOutcome config fp ig fs now).erroredFileRead
      = (config.include_content
          && (match fs.readResult with
              | Except.ok _ => false
              | Except.error _ => true)) := rfl

lemma trigger_webhook_payload_eq (config : Config) (fp : String)
    (ig : List String) (sr : Except String HttpResponse) (fs : FsOracle)
    (now : String) :
    (trigger_webhook config fp ig sr fs now).payload
      = (baseOutcome config fp ig fs now).payload := by
  rcases trigger_eq_base_or_enabled config fp ig sr fs now with
    hb | ⟨r, _, _, _, heq⟩
  · rw [hb]
  · rw [heq, overwriteWithResponse_payload]

lemma trigger_webhook_erroredFileRead_eq (config : Config) (fp : String)
    (ig : List String) (sr : Except String HttpResponse) (fs : FsOracle)
    (now : String) :
    (trigger_webhook config fp ig sr fs now).erroredFileRead
      = (baseOutcome config fp ig fs now).erroredFileRead := by
  rcases trigger_eq_base_or_enabled config fp ig sr fs now with
    hb | ⟨r, _, _, _, heq⟩
  · rw [hb]
  · rw [heq, overwriteWithResponse_erroredFileRead]

lemma trigger_webhook_sendAttempted_eq (config : Config) (fp : String)
    (ig : List String) (sr : Except String HttpResponse) (fs : FsOracle)
    (now : String) :
    (trigger_webhook config fp ig sr fs now).sendAttempted = true := by
  rcases trigger_eq_base_or_enabled config fp ig sr fs now with
    hb | ⟨r, _, _, _, heq⟩
  · rw [hb, baseOutcome_sendAttempted]
  · rw [heq, overwriteWithResponse_sendAttempted, baseOutcome_sendAttempted]

lemma content_mem_serializedFields (p : WebhookPayload) (c : String) :
    (("content", c) ∈ serializedFields p) ↔ p.content = some c := by
  cases hc : p.content with
  | none => simp [serializedFields, hc]
  | some d => simp [serializedFields, hc, eq_comm]

lemma rustToLowercase_true_iff (s : String) :
    (rustToLowercase s == "true") = true
      ↔ eqIgnoreAsciiCase s "true" = true := by
  unfold rustToLowercase eqIgnoreAsciiCase
  simp only [beq_iff_eq]
  rw [show "true".toList.map asciiLower = "true".toList from by decide]
  constructor
  · intro h
    exact congrArg String.data h
  · intro h
    exact String.ext h

/-- The environment with no variables set. -/
def envEmpty : String → Option String := fun _ => none

/-- The environment with only `WEBHOOK_URL` set. -/
def envUrlOnly : String → Option String :=
  fun k => if k == "WEBHOOK_URL" then some "http://h/w" else none

/-! ### Claim theorems -/

/-- Claim C1: the response-driven overwrite path is entered only when the
HTTP response status is 2xx AND `overwrite_with_response` AND
`include_content` are both true; in particular with
`OVERWRITE_WITH_RESPONSE=true` and `INCLUDE_CONTENT=false` the overwrite
path is never entered, and `main` warns about the inert combination at
startup (it is not an error). -/
theorem claim_C1_overwrite_gating (config : Config) (fp : String)
    (ig : List String) (sr : Except String HttpResponse) (fs : FsOracle)
    (now : String) :
    ((trigger_webhook config fp ig sr fs now).overwriteEntered = true →
      config.overwrite_with_response = true ∧ config.include_content = true
        ∧ ∃ r, sr = Except.ok r ∧ isSuccessStatus r.status = true)
    ∧ (config.overwrite_with_response = true → config.include_content = false →
      (trigger_webhook config fp ig sr fs now).overwriteEntered = false
        ∧ mainWarnsInertCombination config = true) := by
  constructor
  · intro h
    cases sr with
    | error e =>
      rw [trigger_webhook_sendError, baseOutcome_overwriteEntered] at h
      exact absurd h (by simp)
    | ok r =>
      cases hs : isSuccessStatus r.status with
      | false =>
        rw [trigger_webhook_notSuccess config fp ig r fs now hs,
          baseOutcome_overwriteEntered] at h
        exact absurd h (by simp)
      | true =>
        cases hw : should_overwrite_with_response config with
        | false =>
          rw [trigger_webhook_success_disabled config fp ig r fs now hs hw,
            baseOutcome_overwriteEntered] at h
          exact absurd h (by simp)
        | true =>
          unfold should_overwrite_with_response at hw
          rw [Bool.and_eq_true] at hw
          exact ⟨hw.1, hw.2, r, rfl, hs⟩
  · intro how hinc
    have hw : should_overwrite_with_response config = false := by
      unfold should_overwrite_with_response
      rw [how, hinc]
      rfl
    have hm : mainWarnsInertCombination config = true := by
      unfold mainWarnsInertCombination
      rw [how, hinc]
      rfl
    refine ⟨?_, hm⟩
    cases sr with
    | error e => rw [trigger_webhook_sendError, baseOutcome_overwriteEntered]
    | ok r =>
      cases hs : isSuccessStatus r.status with
      | false =>
        rw [trigger_webhook_notSuccess config fp ig r fs now hs,
          baseOutcome_overwriteEntered]
      | true =>
        rw [trigger_webhook_success_disabled config fp ig r fs now hs hw,
          baseOutcome_overwriteEntered]

/-- Claim C1, witness: a concrete run with `OVERWRITE_WITH_RESPONSE=true` and
`INCLUDE_CONTENT=false` never enters the overwrite path and is warned about,
and a concrete 2xx run with both flags true that does enter it exhibits the
gating conditions. -/
theorem claim_C1_overwrite_gating_witness :
    ((trigger_webhook cfgInert "/watch/a.xml" [] (Except.ok respXmlOk) fsOk
        "2026-01-01T00:00:00Z").overwriteEntered = false
      ∧ mainWarnsInertCombination cfgInert = true)
    ∧ (cfgFull.overwrite_with_response = true
      ∧ cfgFull.include_content = true
      ∧ ∃ r, (Except.ok respXmlOk : Except String HttpResponse)
            = Except.ok r
          ∧ isSuccessStatus r.status = true) :=
  ⟨(claim_C1_overwrite_gating cfgInert "/watch/a.xml" []
      (Except.ok respXmlOk) fsOk "2026-01-01T00:00:00Z").2 rfl rfl,
   (claim_C1_overwrite_gating cfgFull "/watch/a.xml" []
      (Except.ok respXmlOk) fsOk "2026-01-01T00:00:00Z").1 (by decide)⟩

/-- Claim C2: an event whose path is in the suppression set when the
dispatcher processes it is logged and skipped — never spawned — and a path
inserted into the set stays contained across any further operations that do
not remove it, while a removal (explicit or the deferred one) makes
`contains` return false. -/
theorem claim_C2_suppression_skip_and_lifetime (kind : EventKind)
    (isFileNow : String → Bool) (ig : List String) (p : String) :
    (igContains ig p = true →
      dispatchPath kind isFileNow ig p ≠ Decision.spawned)
    ∧ (kind = EventKind.create → isFileNow p = true → is_xml_file p = true →
      igContains ig p = true →
      dispatchPath kind isFileNow ig p = Decision.suppressed)
    ∧ (∀ s, igContains (igInsert s p) p = true)
    ∧ (∀ s ops, (∀ op ∈ ops, op ≠ SetOp.rem p) →
      igContains (applySetOps (igInsert s p) ops) p = true)
    ∧ (∀ s, igContains (igRemove s p) p = false) := by
  refine ⟨?_, ?_, fun s => igContains_igInsert_self s p, ?_,
    fun s => igContains_igRemove_self s p⟩
  · intro h hsp
    cases kind with
    | create =>
      unfold dispatchPath at hsp
      cases hf : isFileNow p && is_xml_file p with
      | false =>
        rw [hf] at hsp
        simp at hsp
      | true =>
        rw [hf, h] at hsp
        simp at hsp
    | modify => unfold dispatchPath at hsp; simp at hsp
    | removeKind => unfold dispatchPath at hsp; simp at hsp
    | other => unfold dispatchPath at hsp; simp at hsp
  · intro hk hf hx h
    subst hk
    unfold dispatchPath
    rw [hf, hx, h]
    simp
  · intro s ops hops
    exact igContains_applySetOps_preserved p ops (igInsert s p) hops
      (igContains_igInsert_self s p)

/-- Claim C2, witness: a concrete suppressed dispatch, persistence of a
concrete insertion across unrelated operations, and a concrete removal. -/
theorem claim_C2_suppression_skip_and_lifetime_witness :
    dispatchPath EventKind.create (fun _ => true) ["/watch/a.xml"]
        "/watch/a.xml" = Decision.suppressed
    ∧ dispatchPath EventKind.create (fun _ => true) ["/watch/a.xml"]
        "/watch/a.xml" ≠ Decision.spawned
    ∧ igContains
        (applySetOps (igInsert [] "/watch/a.xml")
          [SetOp.ins "/watch/b.xml", SetOp.rem "/watch/b.xml"])
        "/watch/a.xml" = true
    ∧ igContains (igRemove ["/watch/a.xml"] "/watch/a.xml") "/watch/a.xml"
        = false :=
  ⟨(claim_C2_suppression_skip_and_lifetime EventKind.create (fun _ => true)
      ["/watch/a.xml"] "/watch/a.xml").2.1 rfl rfl (by decide) (by decide),
   (claim_C2_suppression_skip_and_lifetime EventKind.create (fun _ => true)
      ["/watch/a.xml"] "/watch/a.xml").1 (by decide),
   (claim_C2_suppression_skip_and_lifetime EventKind.create (fun _ => true)
      ["/watch/a.xml"] "/watch/a.xml").2.2.2.1 []
      [SetOp.ins "/watch/b.xml", SetOp.rem "/watch/b.xml"] (by decide),
   (claim_C2_suppression_skip_and_lifetime EventKind.create (fun _ => true)
      ["/watch/a.xml"] "/watch/a.xml").2.2.2.2 ["/watch/a.xml"]⟩

/-- Claim C3: within the overwrite path the file is written only when the
content-type header value (missing header read as the empty string) has
prefix `text/xml` or `application/xml`; any other value produces the
not-XML warning and leaves the file and suppression set untouched. -/
theorem claim_C3_content_type_gate (config : Config) (fp : String)
    (ig : List String) (r : HttpResponse) (fs : FsOracle) (now : String) :
    ((trigger_webhook config fp ig (Except.ok r) fs now).fileOverwritten
        = true →
      contentTypeIsXml (r.contentTypeHeader.getD "") = true)
    ∧ (contentTypeIsXml (r.contentTypeHeader.getD "") = false →
      (trigger_webhook config fp ig (Except.ok r) fs now).overwriteEntered
          = true →
        (trigger_webhook config fp ig (Except.ok r) fs now).warnedNotXml
            = true
        ∧ (trigger_webhook config fp ig (Except.ok r) fs now).fileOverwritten
            = false
        ∧ (trigger_webhook config fp ig (Except.ok r) fs now).ignoreAtWrite
            = none
        ∧ (trigger_webhook config fp ig (Except.ok r) fs now).ignoreAfter
            = ig)
    ∧ contentTypeIsXml "application/xml; charset=utf-8" = true
    ∧ contentTypeIsXml "text/xml; charset=utf-8" = true
    ∧ contentTypeIsXml "text/plain" = false
    ∧ contentTypeIsXml "" = false := by
  refine ⟨?_, ?_, by decide, by decide, by decide, by decide⟩
  · intro h
    rcases trigger_eq_base_or_enabled config fp ig (Except.ok r) fs now with
      hbase | ⟨r', hr', hs, hw, heq⟩
    · rw [hbase, baseOutcome_fileOverwritten] at h
      exact Bool.noConfusion h
    · have hrr : r = r' := Except.ok.inj hr'
      subst hrr
      rw [heq] at h
      rcases overwriteWithResponse_cases fp ig r fs.writeResult
        (baseOutcome config fp ig fs now) with
        ⟨hx, he⟩ | ⟨hx, e, hb, he⟩ | ⟨hx, hb, he⟩ |
        ⟨hx, body, hb, hne, hwr, he⟩ | ⟨hx, body, e, hb, hne, hwr, he⟩
      · rw [he] at h
        exact Bool.noConfusion h
      · rw [he] at h
        exact Bool.noConfusion h
      · rw [he] at h
        exact Bool.noConfusion h
      · exact hx
      · rw [he] at h
        exact Bool.noConfusion h
  · intro hx h
    rcases trigger_eq_base_or_enabled config fp ig (Except.ok r) fs now with
      hbase | ⟨r', hr', hs, hw, heq⟩
    · rw [hbase, baseOutcome_overwriteEntered] at h
      exact Bool.noConfusion h
    · have hrr : r = r' := Except.ok.inj hr'
      subst hrr
      rw [heq]
      rcases overwriteWithResponse_cases fp ig r fs.writeResult
        (baseOutcome config fp ig fs now) with
        ⟨hx', he⟩ | ⟨hx', e, hb, he⟩ | ⟨hx', hb, he⟩ |
        ⟨hx', body, hb, hne, hwr, he⟩ | ⟨hx', body, e, hb, hne, hwr, he⟩
      · rw [he]
        exact ⟨rfl, rfl, rfl, rfl⟩
      · rw [hx] at hx'
        exact Bool.noConfusion hx'
      · rw [hx] at hx'
        exact Bool.noConfusion hx'
      · rw [hx] at hx'
        exact Bool.noConfusion hx'
      · rw [hx] at hx'
        exact Bool.noConfusion hx'

/-- Claim C3, witness: a concrete overwritten run has an XML content type;
a concrete `text/plain` run warns and does not modify the file. -/
theorem claim_C3_content_type_gate_witness :
    contentTypeIsXml (respXmlOk.contentTypeHeader.getD "") = true
    ∧ ((trigger_webhook cfgFull "/watch/a.xml" [] (Except.ok respPlain) fsOk
          "2026-01-01T00:00:00Z").warnedNotXml = true
      ∧ (trigger_webhook cfgFull "/watch/a.xml" [] (Except.ok respPlain) fsOk
          "2026-01-01T00:00:00Z").fileOverwritten = false
      ∧ (trigger_webhook cfgFull "/watch/a.xml" [] (Except.ok respPlain) fsOk
          "2026-01-01T00:00:00Z").ignoreAtWrite = none
      ∧ (trigger_webhook cfgFull "/watch/a.xml" [] (Except.ok respPlain) fsOk
          "2026-01-01T00:00:00Z").ignoreAfter = []) :=
  ⟨(claim_C3_content_type_gate cfgFull "/watch/a.xml" [] respXmlOk fsOk
      "2026-01-01T00:00:00Z").1 (by decide),
   (claim_C3_content_type_gate cfgFull "/watch/a.xml" [] respPlain fsOk
      "2026-01-01T00:00:00Z").2.1 (by decide) (by decide)⟩

/-- Claim C4: whenever the overwrite write is attempted, the suppression set
passed to the write already contains the path (insert happens-before write);
a failed write rolls the entry back immediately and logs the error, with no
deferred removal; a successful write leaves the entry in place and schedules
the deferred removal after the fixed 2-second ignore duration. -/
theorem claim_C4_insert_before_write (config : Config) (fp : String)
    (ig : List String) (sr : Except String HttpResponse) (fs : FsOracle)
    (now : String) :
    (∀ s, (trigger_webhook config fp ig sr fs now).ignoreAtWrite = some s →
      s = igInsert ig fp ∧ igContains s fp = true)
    ∧ ((trigger_webhook config fp ig sr fs now).erroredWrite = true →
      (trigger_webhook config fp ig sr fs now).ignoreAfter
          = igRemove (igInsert ig fp) fp
      ∧ igContains (trigger_webhook config fp ig sr fs now).ignoreAfter fp
          = false
      ∧ (trigger_webhook config fp ig sr fs now).deferredRemovalDelaySecs
          = none)
    ∧ ((trigger_webhook config fp ig sr fs now).fileOverwritten = true →
      (trigger_webhook config fp ig sr fs now).ignoreAtWrite
          = some (igInsert ig fp)
      ∧ (trigger_webhook config fp ig sr fs now).ignoreAfter = igInsert ig fp
      ∧ (trigger_webhook config fp ig sr fs now).deferredRemovalDelaySecs
          = some IGNORE_DURATION_SECS
      ∧ IGNORE_DURATION_SECS = 2) := by
  rcases trigger_eq_base_or_enabled config fp ig sr fs now with
    hbase | ⟨r, hr, hs, hw, heq⟩
  · rw [hbase]
    exact ⟨fun s h => Option.noConfusion h, fun h => Bool.noConfusion h,
      fun h => Bool.noConfusion h⟩
  · rw [heq]
    rcases overwriteWithResponse_cases fp ig r fs.writeResult
      (baseOutcome config fp ig fs now) with
      ⟨hx, he⟩ | ⟨hx, e, hb, he⟩ | ⟨hx, hb, he⟩ |
      ⟨hx, body, hb, hne, hwr, he⟩ | ⟨hx, body, e, hb, hne, hwr, he⟩
    · rw [he]
      exact ⟨fun s h => Option.noConfusion h, fun h => Bool.noConfusion h,
        fun h => Bool.noConfusion h⟩
    · rw [he]
      exact ⟨fun s h => Option.noConfusion h, fun h => Bool.noConfusion h,
        fun h => Bool.noConfusion h⟩
    · rw [he]
      exact ⟨fun s h => Option.noConfusion h, fun h => Bool.noConfusion h,
        fun h => Bool.noConfusion h⟩
    · rw [he]
      refine ⟨?_, fun h => Bool.noConfusion h, fun _ => ⟨rfl, rfl, rfl, rfl⟩⟩
      intro s h
      have h' : igInsert ig fp = s := Option.some.inj h
      exact ⟨h'.symm, h' ▸ igContains_igInsert_self ig fp⟩
    · rw [he]
      refine ⟨?_, fun _ =>
        ⟨rfl, igContains_igRemove_self (igInsert ig fp) fp, rfl⟩,
        fun h => Bool.noConfusion h⟩
      intro s h
      have h' : igInsert ig fp = s := Option.some.inj h
      exact ⟨h'.symm, h' ▸ igContains_igInsert_self ig fp⟩

/-- Claim C4, witness: a concrete successful overwrite has the path in the
set at write time and schedules the 2-second deferred removal; a concrete
failed write rolls the entry back. -/
theorem claim_C4_insert_before_write_witness :
    (igInsert [] "/watch/a.xml" = igInsert [] "/watch/a.xml"
      ∧ igContains (igInsert [] "/watch/a.xml") "/watch/a.xml" = true)
    ∧ ((trigger_webhook cfgFull "/watch/a.xml" [] (Except.ok respXmlOk)
          fsWriteErr "2026-01-01T00:00:00Z").ignoreAfter
        = igRemove (igInsert [] "/watch/a.xml") "/watch/a.xml"
      ∧ igContains (trigger_webhook cfgFull "/watch/a.xml" []
          (Except.ok respXmlOk) fsWriteErr
          "2026-01-01T00:00:00Z").ignoreAfter "/watch/a.xml" = false
      ∧ (trigger_webhook cfgFull "/watch/a.xml" [] (Except.ok respXmlOk)
          fsWriteErr "2026-01-01T00:00:00Z").deferredRemovalDelaySecs = none)
    ∧ ((trigger_webhook cfgFull "/watch/a.xml" [] (Except.ok respXmlOk) fsOk
          "2026-01-01T00:00:00Z").ignoreAtWrite
        = some (igInsert [] "/watch/a.xml")
      ∧ (trigger_webhook cfgFull "/watch/a.xml" [] (Except.ok respXmlOk) fsOk
          "2026-01-01T00:00:00Z").ignoreAfter = igInsert [] "/watch/a.xml"
      ∧ (trigger_webhook cfgFull "/watch/a.xml" [] (Except.ok respXmlOk) fsOk
          "2026-01-01T00:00:00Z").deferredRemovalDelaySecs
        = some IGNORE_DURATION_SECS
      ∧ IGNORE_DURATION_SECS = 2) :=
  ⟨(claim_C4_insert_before_write cfgFull "/watch/a.xml" []
      (Except.ok respXmlOk) fsOk "2026-01-01T00:00:00Z").1
      (igInsert [] "/watch/a.xml") (by decide),
   (claim_C4_insert_before_write cfgFull "/watch/a.xml" []
      (Except.ok respXmlOk) fsWriteErr "2026-01-01T00:00:00Z").2.1
      (by decide),
   (claim_C4_insert_before_write cfgFull "/watch/a.xml" []
      (Except.ok respXmlOk) fsOk "2026-01-01T00:00:00Z").2.2 (by decide)⟩

/-- Claim C7: when the overwrite path is entered and the body reads as the
empty string, the file is not overwritten and the suppression set is left
unchanged; when the content type was accepted as XML the empty-body warning
is logged. -/
theorem claim_C7_empty_body (config : Config) (fp : String)
    (ig : List String) (r : HttpResponse) (fs : FsOracle) (now : String) :
    (trigger_webhook config fp ig (Except.ok r) fs now).overwriteEntered
        = true →
    r.bodyText = Except.ok "" →
      (trigger_webhook config fp ig (Except.ok r) fs now).fileOverwritten
          = false
      ∧ (trigger_webhook config fp ig (Except.ok r) fs now).ignoreAtWrite
          = none
      ∧ (trigger_webhook config fp ig (Except.ok r) fs now).ignoreAfter = ig
      ∧ (contentTypeIsXml (r.contentTypeHeader.getD "") = true →
          (trigger_webhook config fp ig (Except.ok r) fs now).warnedEmptyBody
            = true) := by
  intro h hb
  rcases trigger_eq_base_or_enabled config fp ig (Except.ok r) fs now with
    hbase | ⟨r', hr', hs, hw, heq⟩
  · rw [hbase, baseOutcome_overwriteEntered] at h
    exact Bool.noConfusion h
  · have hrr : r = r' := Except.ok.inj hr'
    subst hrr
    rw [heq]
    rcases overwriteWithResponse_cases fp ig r fs.writeResult
      (baseOutcome config fp ig fs now) with
      ⟨hx, he⟩ | ⟨hx, e, hb', he⟩ | ⟨hx, hb', he⟩ |
      ⟨hx, body, hb', hne, hwr, he⟩ | ⟨hx, body, e, hb', hne, hwr, he⟩
    · rw [he]
      refine ⟨rfl, rfl, rfl, fun hxx => ?_⟩
      rw [hx] at hxx
      exact Bool.noConfusion hxx
    · rw [hb] at hb'
      exact Except.noConfusion hb'
    · rw [he]
      exact ⟨rfl, rfl, rfl, fun _ => rfl⟩
    · rw [hb] at hb'
      exact absurd (Except.ok.inj hb').symm hne
    · rw [hb] at hb'
      exact absurd (Except.ok.inj hb').symm hne

/-- Claim C7, witness: a concrete 2xx XML response with an empty body warns
and does not modify the file or the suppression set. -/
theorem claim_C7_empty_body_witness :
    (trigger_webhook cfgFull "/watch/a.xml" [] (Except.ok respXmlEmpty) fsOk
        "2026-01-01T00:00:00Z").fileOverwritten = false
    ∧ (trigger_webhook cfgFull "/watch/a.xml" [] (Except.ok respXmlEmpty)
        fsOk "2026-01-01T00:00:00Z").ignoreAtWrite = none
    ∧ (trigger_webhook cfgFull "/watch/a.xml" [] (Except.ok respXmlEmpty)
        fsOk "2026-01-01T00:00:00Z").ignoreAfter = []
    ∧ (contentTypeIsXml (respXmlEmpty.contentTypeHeader.getD "") = true →
        (trigger_webhook cfgFull "/watch/a.xml" [] (Except.ok respXmlEmpty)
          fsOk "2026-01-01T00:00:00Z").warnedEmptyBody = true) :=
  claim_C7_empty_body cfgFull "/watch/a.xml" [] respXmlEmpty fsOk
    "2026-01-01T00:00:00Z" (by decide) rfl

/-- Claim C10: if the overwrite path is entered with an accepted XML content
type but reading the body fails, only the error is logged: the file is not
written and the suppression set is left entirely unchanged. -/
theorem claim_C10_body_read_failure (config : Config) (fp : String)
    (ig : List String) (r : HttpResponse) (fs : FsOracle) (now : String)
    (e : String) :
    (trigger_webhook config fp ig (Except.ok r) fs now).overwriteEntered
        = true →
    contentTypeIsXml (r.contentTypeHeader.getD "") = true →
    r.bodyText = Except.error e →
      (trigger_webhook config fp ig (Except.ok r) fs now).erroredBodyRead
          = true
      ∧ (trigger_webhook config fp ig (Except.ok r) fs now).fileOverwritten
          = false
      ∧ (trigger_webhook config fp ig (Except.ok r) fs now).ignoreAtWrite
          = none
      ∧ (trigger_webhook config fp ig (Except.ok r) fs now).ignoreAfter
          = ig := by
  intro h hx hb
  rcases trigger_eq_base_or_enabled config fp ig (Except.ok r) fs now with
    hbase | ⟨r', hr', hs, hw, heq⟩
  · rw [hbase, baseOutcome_overwriteEntered] at h
    exact Bool.noConfusion h
  · have hrr : r = r' := Except.ok.inj hr'
    subst hrr
    rw [heq]
    rcases overwriteWithResponse_cases fp ig r fs.writeResult
      (baseOutcome config fp ig fs now) with
      ⟨hx', he⟩ | ⟨hx', e', hb', he⟩ | ⟨hx', hb', he⟩ |
      ⟨hx', body, hb', hne, hwr, he⟩ | ⟨hx', body, e', hb', hne, hwr, he⟩
    · rw [hx] at hx'
      exact Bool.noConfusion hx'
    · rw [he]
      exact ⟨rfl, rfl, rfl, rfl⟩
    · rw [hb] at hb'
      exact Except.noConfusion hb'
    · rw [hb] at hb'
      exact Except.noConfusion hb'
    · rw [hb] at hb'
      exact Except.noConfusion hb'

/-- Claim C10, witness: a concrete run whose body read fails logs the error
and leaves the file and the suppression set untouched. -/
theorem claim_C10_body_read_failure_witness :
    (trigger_webhook cfgFull "/watch/a.xml" [] (Except.ok respXmlBodyErr)
        fsOk "2026-01-01T00:00:00Z").erroredBodyRead = true
    ∧ (trigger_webhook cfgFull "/watch/a.xml" [] (Except.ok respXmlBodyErr)
        fsOk "2026-01-01T00:00:00Z").fileOverwritten = false
    ∧ (trigger_webhook cfgFull "/watch/a.xml" [] (Except.ok respXmlBodyErr)
        fsOk "2026-01-01T00:00:00Z").ignoreAtWrite = none
    ∧ (trigger_webhook cfgFull "/watch/a.xml" [] (Except.ok respXmlBodyErr)
        fsOk "2026-01-01T00:00:00Z").ignoreAfter = [] :=
  claim_C10_body_read_failure cfgFull "/watch/a.xml" [] respXmlBodyErr fsOk
    "2026-01-01T00:00:00Z" "decode error" (by decide) (by decide) rfl

/-- Claim C5: the dispatcher spawns a delivery only for a path of a creation
event that currently exists as a regular file and whose extension
case-insensitively equals `xml`; a path whose extension is anything else
never gets a delivery. -/
theorem claim_C5_xml_filter (kind : EventKind) (isFileNow : String → Bool)
    (ig : List String) (p : String) :
    (dispatchPath kind isFileNow ig p = Decision.spawned →
      kind = EventKind.create ∧ isFileNow p = true ∧ is_xml_file p = true)
    ∧ (is_xml_file p = false →
      dispatchPath kind isFileNow ig p ≠ Decision.spawned) := by
  constructor
  · intro h
    cases kind with
    | create =>
      cases hf : isFileNow p with
      | false =>
        unfold dispatchPath at h
        rw [hf] at h
        simp at h
      | true =>
        cases hx : is_xml_file p with
        | false =>
          unfold dispatchPath at h
          rw [hf, hx] at h
          simp at h
        | true => exact ⟨rfl, rfl, rfl⟩
    | modify => unfold dispatchPath at h; simp at h
    | removeKind => unfold dispatchPath at h; simp at h
    | other => unfold dispatchPath at h; simp at h
  · intro hx h
    cases kind with
    | create =>
      unfold dispatchPath at h
      rw [hx] at h
      simp at h
    | modify => unfold dispatchPath at h; simp at h
    | removeKind => unfold dispatchPath at h; simp at h
    | other => unfold dispatchPath at h; simp at h

/-- Claim C5, witness: a created, existing `a.txt` is never delivered, and a
spawned decision for a concrete run exhibits the acceptance conditions. -/
theorem claim_C5_xml_filter_witness :
    (dispatchPath EventKind.create (fun _ => true) [] "/watch/a.txt"
        ≠ Decision.spawned)
    ∧ (EventKind.create = EventKind.create
      ∧ (fun (_ : String) => true) "/watch/b.xml" = true
      ∧ is_xml_file "/watch/b.xml" = true) :=
  ⟨(claim_C5_xml_filter EventKind.create (fun _ => true) [] "/watch/a.txt").2
      (by decide),
   (claim_C5_xml_filter EventKind.create (fun _ => true) [] "/watch/b.xml").1
      (by decide)⟩

/-- Claim C6: the request verb is the configured method string upper-cased
and matched against GET/PUT/PATCH/DELETE; any other value — `"post"` in any
casing or an unrecognized string — results in a POST request, never an
error; and `trigger_webhook` always uses exactly this resolution. -/
theorem claim_C6_method_fallback :
    (∀ m : String,
        rustToUppercase m ≠ "GET" → rustToUppercase m ≠ "PUT" →
        rustToUppercase m ≠ "PATCH" → rustToUppercase m ≠ "DELETE" →
        resolveMethod m = HttpMethod.POST)
    ∧ resolveMethod "post" = HttpMethod.POST
    ∧ resolveMethod "Post" = HttpMethod.POST
    ∧ resolveMethod "POST" = HttpMethod.POST
    ∧ resolveMethod "bogus" = HttpMethod.POST
    ∧ ∀ (config : Config) (fp : String) (ig : List String)
        (sr : Except String HttpResponse) (fs : FsOracle) (now : String),
        (trigger_webhook config fp ig sr fs now).requestMethod
          = resolveMethod config.webhook_method := by
  refine ⟨?_, by decide, by decide, by decide, by decide, ?_⟩
  · intro m h1 h2 h3 h4
    unfold resolveMethod
    rw [if_neg (by simp [h1]), if_neg (by simp [h2]), if_neg (by simp [h3]),
      if_neg (by simp [h4])]
  · intro config fp ig sr fs now
    cases sr with
    | error e => rw [trigger_webhook_sendError, baseOutcome_requestMethod]
    | ok r =>
      cases hs : isSuccessStatus r.status with
      | false =>
        rw [trigger_webhook_notSuccess config fp ig r fs now hs,
          baseOutcome_requestMethod]
      | true =>
        cases hw : should_overwrite_with_response config with
        | false =>
          rw [trigger_webhook_success_disabled config fp ig r fs now hs hw,
            baseOutcome_requestMethod]
        | true =>
          rw [trigger_webhook_success_enabled config fp ig r fs now hs hw,
            overwriteWithResponse_requestMethod, baseOutcome_requestMethod]

/-- Claim C6, witness: the unrecognized method `"xyz"` falls back to POST. -/
theorem claim_C6_method_fallback_witness :
    resolveMethod "xyz" = HttpMethod.POST :=
  claim_C6_method_fallback.1 "xyz" (by decide) (by decide) (by decide)
    (by decide)

/-- Claim C8: the serialized payload carries a `content` field exactly when
`include_content` is true and the file read succeeded; a read failure under
`include_content` is logged, leaves the field absent, and the delivery still
proceeds. -/
theorem claim_C8_content_field (config : Config) (fp : String)
    (ig : List String) (sr : Except String HttpResponse) (fs : FsOracle)
    (now : String) :
    ((∃ c, ("content", c) ∈ serializedFields
        (trigger_webhook config fp ig sr fs now).payload)
      ↔ config.include_content = true ∧ ∃ c, fs.readResult = Except.ok c)
    ∧ (config.include_content = true →
      ∀ e, fs.readResult = Except.error e →
        (trigger_webhook config fp ig sr fs now).erroredFileRead = true
        ∧ (trigger_webhook config fp ig sr fs now).payload.content = none
        ∧ (trigger_webhook config fp ig sr fs now).sendAttempted = true) := by
  constructor
  · rw [trigger_webhook_payload_eq]
    constructor
    · rintro ⟨c, hc⟩
      rw [content_mem_serializedFields, baseOutcome_payload_content] at hc
      cases hinc : config.include_content with
      | false =>
        rw [hinc] at hc
        simp at hc
      | true =>
        rw [hinc] at hc
        simp only [if_true] at hc
        cases hr : fs.readResult with
        | ok v => exact ⟨rfl, v, rfl⟩
        | error e =>
          rw [hr] at hc
          simp at hc
    · rintro ⟨hinc, c, hr⟩
      refine ⟨c, ?_⟩
      rw [content_mem_serializedFields, baseOutcome_payload_content, hinc,
        hr]
      simp
  · intro hinc e hre
    refine ⟨?_, ?_, trigger_webhook_sendAttempted_eq config fp ig sr fs now⟩
    · rw [trigger_webhook_erroredFileRead_eq, baseOutcome_erroredFileRead,
        hinc, hre]
      rfl
    · rw [trigger_webhook_payload_eq, baseOutcome_payload_content, hinc, hre]
      simp

/-- Claim C8, witness: a concrete run with `include_content` and a failing
file read logs the failure, omits the content field, and still sends. -/
theorem claim_C8_content_field_witness :
    (trigger_webhook cfgFull "/watch/a.xml" [] (Except.ok respXmlOk)
        fsReadErr "2026-01-01T00:00:00Z").erroredFileRead = true
    ∧ (trigger_webhook cfgFull "/watch/a.xml" [] (Except.ok respXmlOk)
        fsReadErr "2026-01-01T00:00:00Z").payload.content = none
    ∧ (trigger_webhook cfgFull "/watch/a.xml" [] (Except.ok respXmlOk)
        fsReadErr "2026-01-01T00:00:00Z").sendAttempted = true :=
  (claim_C8_content_field cfgFull "/watch/a.xml" [] (Except.ok respXmlOk)
    fsReadErr "2026-01-01T00:00:00Z").2 rfl "no such file" rfl

/-- Claim C9: `Config::from_env` fails exactly when `WEBHOOK_URL` is unset;
otherwise it succeeds with the documented defaults for the unset fields, and
a boolean variable resolves to true exactly when its value equals `"true"`
ASCII-case-insensitively. -/
theorem claim_C9_from_env (env : String → Option String) :
    ((∃ e, Config.from_env env = Except.error e)
      ↔ env "WEBHOOK_URL" = none)
    ∧ ∀ u, env "WEBHOOK_URL" = some u →
      ∃ c, Config.from_env env = Except.ok c
        ∧ c.webhook_url = u
        ∧ c.watch_dir = (env "WATCH_DIR").getD "/watch"
        ∧ c.webhook_method = (env "WEBHOOK_METHOD").getD "POST"
        ∧ (env "WATCH_DIR" = none → c.watch_dir = "/watch")
        ∧ (env "WEBHOOK_METHOD" = none → c.webhook_method = "POST")
        ∧ (env "INCLUDE_CONTENT" = none → c.include_content = false)
        ∧ (env "OVERWRITE_WITH_RESPONSE" = none →
            c.overwrite_with_response = false)
        ∧ (c.include_content = true
            ↔ eqIgnoreAsciiCase ((env "INCLUDE_CONTENT").getD "false")
                "true" = true)
        ∧ (c.overwrite_with_response = true
            ↔ eqIgnoreAsciiCase ((env "OVERWRITE_WITH_RESPONSE").getD
                "false") "true" = true) := by
  constructor
  · constructor
    · rintro ⟨e, he⟩
      cases hu : env "WEBHOOK_URL" with
      | none => rfl
      | some u =>
        unfold Config.from_env at he
        rw [hu] at he
        simp at he
    · intro hn
      exact ⟨"WEBHOOK_URL environment variable is required",
        by unfold Config.from_env; rw [hn]⟩
  · intro u hu
    refine ⟨⟨(env "WATCH_DIR").getD "/watch", u,
      (env "WEBHOOK_METHOD").getD "POST",
      rustToLowercase ((env "INCLUDE_CONTENT").getD "false") == "true",
      rustToLowercase ((env "OVERWRITE_WITH_RESPONSE").getD "false")
        == "true"⟩,
      ?_, rfl, rfl, rfl, ?_, ?_, ?_, ?_,
      rustToLowercase_true_iff ((env "INCLUDE_CONTENT").getD "false"),
      rustToLowercase_true_iff ((env "OVERWRITE_WITH_RESPONSE").getD
        "false")⟩
    · unfold Config.from_env
      rw [hu]
    · intro h
      rw [h]
      rfl
    · intro h
      rw [h]
      rfl
    · intro h
      show (rustToLowercase ((env "INCLUDE_CONTENT").getD "false")
        == "true") = false
      rw [h]
      decide
    · intro h
      show (rustToLowercase ((env "OVERWRITE_WITH_RESPONSE").getD "false")
        == "true") = false
      rw [h]
      decide

/-- Claim C9, witness: the empty environment fails, and the environment with
only `WEBHOOK_URL` set yields the documented defaults. -/
theorem claim_C9_from_env_witness :
    (∃ e, Config.from_env envEmpty = Except.error e)
    ∧ ∃ c, Config.from_env envUrlOnly = Except.ok c
        ∧ c.webhook_url = "http://h/w"
        ∧ c.watch_dir = (envUrlOnly "WATCH_DIR").getD "/watch"
        ∧ c.webhook_method = (envUrlOnly "WEBHOOK_METHOD").getD "POST"
        ∧ (envUrlOnly "WATCH_DIR" = none → c.watch_dir = "/watch")
        ∧ (envUrlOnly "WEBHOOK_METHOD" = none → c.webhook_method = "POST")
        ∧ (envUrlOnly "INCLUDE_CONTENT" = none → c.include_content = false)
        ∧ (envUrlOnly "OVERWRITE_WITH_RESPONSE" = none →
            c.overwrite_with_response = false)
        ∧ (c.include_content = true
            ↔ eqIgnoreAsciiCase ((envUrlOnly "INCLUDE_CONTENT").getD
                "false") "true" = true)
        ∧ (c.overwrite_with_response = true
            ↔ eqIgnoreAsciiCase ((envUrlOnly "OVERWRITE_WITH_RESPONSE").getD
                "false") "true" = true) :=
  ⟨(claim_C9_from_env envEmpty).1.mpr rfl,
   (claim_C9_from_env envUrlOnly).2 "http://h/w" (by decide)⟩

end XmlWatcher
